import Mathlib

/-!
# Verification of the React fiber context / devtools / host-config layer

A shallow embedding, in Lean 4, of the parts of the repository that the
frozen claims talk about:

* `ReactFiberNewContext` (src/unnamed/part_002): `pushProvider`,
  `popProvider`, `calculateChangedBits`, `propagateContextChange`,
  `readContext`.
* `ReactFiberDevToolsHook` (src/unnamed/part_003): `onScheduleRoot`,
  `onCommitRoot`, `onCommitUnmount`.
* the devtools `installHook` (src/unnamed/part_001).
* `prepareForCommit` / `resetAfterCommit`
  (src/src/renderers/dom/fiber/ReactDOMFiber.js).
* `VerticalScrollView._setScrollState` / `scrollBy`
  (src/packages/react-devtools-scheduling-profiler/src/view-base/VerticalScrollView.js).

JavaScript mutable state is embedded as explicit state records; the fiber
tree (a pointer structure mutated in place) is embedded as an arena,
a total map from fiber ids to fiber records.  Iterative walks are embedded
with explicit fuel.  JavaScript values, where their `===` / `Object.is`
distinctions matter, are embedded by the inductive `JSVal`.
-/

namespace ReactSpec

/-! ## JavaScript values

Only the distinctions `calculateChangedBits` can observe are represented:
`NaN`, the two signed zeros, nonzero finite numbers (as rationals), the two
signed infinities, and all other values collapsed to an identity token.
By convention `num q` is only used with `q ≠ 0`; nothing below depends on
the convention. -/

inductive JSVal : Type where
  | nan : JSVal
  | zero (neg : Bool) : JSVal
  | num (q : ℚ) : JSVal
  | inf (neg : Bool) : JSVal
  | other (id : Nat) : JSVal
deriving DecidableEq, Repr

/-- JavaScript strict equality `===` on `JSVal`: `NaN` is unequal to
everything (itself included), `0 === -0`, and other values compare by
identity. -/
def jsStrictEq : JSVal → JSVal → Bool
  | .nan, _ => false
  | _, .nan => false
  | .zero _, .zero _ => true
  | .num q, .num r => q == r
  | .inf a, .inf b => a == b
  | .other i, .other j => i == j
  | _, _ => false

/-- The `Object.is` comparison on `JSVal` (MDN semantics): like `===` except that
`Object.is(NaN, NaN)` is true and `Object.is(0, -0)` is false. -/
def jsObjectIs : JSVal → JSVal → Bool
  | .nan, .nan => true
  | .zero a, .zero b => a == b
  | .num q, .num r => q == r
  | .inf a, .inf b => a == b
  | .other i, .other j => i == j
  | _, _ => false

/-- JavaScript `1 / x` restricted to what the inlined `Object.is` polyfill
needs: `1 / 0 = Infinity`, `1 / -0 = -Infinity`, the reciprocal of a
nonzero number, `1 / Infinity = 0`, and `NaN` for `NaN` and for the
non-number values. -/
def jsOneOver : JSVal → JSVal
  | .nan => .nan
  | .zero neg => .inf neg
  | .num q => .num (1 / q)
  | .inf neg => .zero neg
  | .other _ => .nan

/-- JavaScript `x | 0`: coercion to a signed 32-bit integer. -/
def toInt32 (n : ℤ) : ℤ :=
  (n + 2 ^ 31) % 2 ^ 32 - 2 ^ 31

/-- Modelled from the spec: `maxSigned31BitInt` (`./maxSigned31BitInt`, not
under src/) is the largest signed 31-bit integer, `2^30 - 1`; the spec's
"all bits changed" default. -/
def maxSigned31BitInt : ℤ := 1073741823

/-- The inlined `Object.is` polyfill condition of `calculateChangedBits`
(part_002 lines 116-120):
`(oldValue === newValue && (oldValue !== 0 || 1/oldValue === 1/newValue))
 || (oldValue !== oldValue && newValue !== newValue)`.
`0` in `oldValue !== 0` is the positive-zero literal. -/
def noChangeCondition (oldValue newValue : JSVal) : Bool :=
  (jsStrictEq oldValue newValue &&
    (!jsStrictEq oldValue (.zero false) ||
      jsStrictEq (jsOneOver oldValue) (jsOneOver newValue))) ||
  (!jsStrictEq oldValue oldValue && !jsStrictEq newValue newValue)

/-- The function `calculateChangedBits(context, newValue, oldValue)` (part_002 lines
108-139).  The context's optional user comparator `_calculateChangedBits`
is passed as `cmp`; when absent the result is `MAX_SIGNED_31_BIT_INT`.
The result goes through `| 0`. -/
def calculateChangedBits (cmp : Option (JSVal → JSVal → ℤ))
    (newValue oldValue : JSVal) : ℤ :=
  if noChangeCondition oldValue newValue then
    0
  else
    toInt32 (match cmp with
      | some f => f oldValue newValue
      | none => maxSigned31BitInt)

/-! ## The provider value stack

`pushProvider` / `popProvider` (part_002 lines 53-106) mutate the context
object's current-value and changed-bits fields through two cursors backed
by the shared stack of `ReactFiberStack`. -/

/-- A context object's mutable fields: `_currentValue` / `_changedBits`
for the primary renderer and `_currentValue2` / `_changedBits2` for the
secondary renderer (part_002; spec section 3, "Context cell"). -/
structure ContextCell : Type where
  currentValue : JSVal
  changedBits : ℤ
  currentValue2 : JSVal
  changedBits2 : ℤ
deriving DecidableEq, Repr

/-- An entry of the shared `ReactFiberStack` value stack: either a saved
context value (from `valueCursor`) or saved changed bits (from
`changedBitsCursor`). -/
inductive StackEntry : Type where
  | val (v : JSVal) : StackEntry
  | bits (b : ℤ) : StackEntry
deriving DecidableEq, Repr

/-- The mutable state `pushProvider` / `popProvider` act on: the context
cell, the two module-level cursors of part_002, and the shared stack. -/
structure ProviderState : Type where
  context : ContextCell
  valueCursor : JSVal
  changedBitsCursor : ℤ
  stack : List StackEntry
deriving DecidableEq, Repr

/-- Modelled from the spec: `push(cursor, value, fiber)` of
`ReactFiberStack` (not under src/) saves the cursor's current value on the
shared stack and installs `value` as the cursor's current value (spec:
"saves the previous value on a stack-like cursor"). -/
def pushValueCursor (s : ProviderState) (value : JSVal) : ProviderState :=
  { s with stack := .val s.valueCursor :: s.stack, valueCursor := value }

/-- Modelled from the spec: `push` on the changed-bits cursor. -/
def pushBitsCursor (s : ProviderState) (value : ℤ) : ProviderState :=
  { s with stack := .bits s.changedBitsCursor :: s.stack,
           changedBitsCursor := value }

/-- Modelled from the spec: `pop(cursor, fiber)` of `ReactFiberStack` (not
under src/) restores the cursor's current value from the top of the shared
stack (spec: "restoring the previous value"); on an empty or ill-typed
stack the cursor is left unchanged. -/
def popValueCursor (s : ProviderState) : ProviderState :=
  match s.stack with
  | .val v :: rest => { s with valueCursor := v, stack := rest }
  | _ => s

/-- Modelled from the spec: `pop` on the changed-bits cursor. -/
def popBitsCursor (s : ProviderState) : ProviderState :=
  match s.stack with
  | .bits b :: rest => { s with changedBitsCursor := b, stack := rest }
  | _ => s

/-- The function `pushProvider(providerFiber, changedBits)` (part_002 lines 53-89).
`newValue` is `providerFiber.pendingProps.value`; `isPrimary` is the
host-config constant `isPrimaryRenderer`. -/
def pushProvider (isPrimary : Bool) (s : ProviderState) (newValue : JSVal)
    (changedBits : ℤ) : ProviderState :=
  if isPrimary then
    let s := pushBitsCursor s s.context.changedBits
    let s := pushValueCursor s s.context.currentValue
    { s with context := { s.context with currentValue := newValue,
                                         changedBits := changedBits } }
  else
    let s := pushBitsCursor s s.context.changedBits2
    let s := pushValueCursor s s.context.currentValue2
    { s with context := { s.context with currentValue2 := newValue,
                                         changedBits2 := changedBits } }

/-- The function `popProvider(providerFiber)` (part_002 lines 91-106): reads the two
cursors, pops both, and writes the read values back into the context
object's fields for the active renderer. -/
def popProvider (isPrimary : Bool) (s : ProviderState) : ProviderState :=
  let changedBits := s.changedBitsCursor
  let currentValue := s.valueCursor
  let s := popValueCursor s
  let s := popBitsCursor s
  if isPrimary then
    { s with context := { s.context with currentValue := currentValue,
                                         changedBits := changedBits } }
  else
    { s with context := { s.context with currentValue2 := currentValue,
                                         changedBits2 := changedBits } }

/-! ## The fiber arena

Fibers are JavaScript objects mutated in place and linked by `child` /
`sibling` / `return` / `alternate` pointers.  They are embedded as an
arena: a total map from fiber ids (`Nat`) to fiber records; a pointer is
an `Option Nat`. -/

/-- One record of a fiber's context dependency list (part_002 lines
15-19); the linked list itself is embedded as a `List`.  Context objects
are identified by a `Nat` id; `observedBits` is a JavaScript number used
with `&`, embedded as `ℤ`. -/
structure ContextDependency : Type where
  context : Nat
  observedBits : ℤ
deriving DecidableEq, Repr

/-- The fields of a fiber that the context-propagation code reads or
writes.  `typeId` identifies the JavaScript `fiber.type` object; `ret` is
the `return` pointer. -/
structure Fiber : Type where
  tag : Nat
  typeId : Nat
  deps : List ContextDependency
  expirationTime : Nat
  childExpirationTime : Nat
  child : Option Nat
  sibling : Option Nat
  ret : Option Nat
  alternate : Option Nat
deriving DecidableEq, Repr

/-- The fiber arena: fiber id to fiber record. -/
def FiberStore : Type := Nat → Fiber

/-- The constant `NoWork` of `ReactFiberExpirationTime`: the zero expiration time.
A nonzero expiration time is more urgent the smaller it is. -/
def NoWork : Nat := 0

/-- Modelled from the spec: the `ContextProvider` work tag of
`shared/ReactTypeOfWork` (not under src/), the spec's "provider" kind in
the fiber tag discriminator.  Its concrete numeral is immaterial; only
equality with it is ever tested. -/
def ContextProvider : Nat := 10

/-- Update one fiber of the arena in place. -/
def updF (s : FiberStore) (i : Nat) (f : Fiber → Fiber) : FiberStore :=
  fun j => if j = i then f (s j) else s j

/-- Write `fiber.expirationTime = t`. -/
def setExp (s : FiberStore) (i : Nat) (t : Nat) : FiberStore :=
  updF s i (fun fb => { fb with expirationTime := t })

/-- Write `fiber.childExpirationTime = t`. -/
def setChildExp (s : FiberStore) (i : Nat) (t : Nat) : FiberStore :=
  updF s i (fun fb => { fb with childExpirationTime := t })

/-- Write `fiber.return = r`. -/
def setRet (s : FiberStore) (i : Nat) (r : Option Nat) : FiberStore :=
  updF s i (fun fb => { fb with ret := r })

/-- The test `fiber.expirationTime === NoWork || fiber.expirationTime >
renderExpirationTime` (part_002 lines 165-168). -/
def needsExpUpdate (rT : Nat) (fb : Fiber) : Bool :=
  fb.expirationTime == NoWork || rT < fb.expirationTime

/-- The test `node.childExpirationTime === NoWork ||
node.childExpirationTime > renderExpirationTime` (part_002 lines
184-187). -/
def needsChildExpUpdate (rT : Nat) (fb : Fiber) : Bool :=
  fb.childExpirationTime == NoWork || rT < fb.childExpirationTime

/-- The ancestor climb of `propagateContextChange` (part_002 lines
179-208): walk the `return` chain from `start`, lowering
`childExpirationTime` of each node and of its alternate to
`renderExpirationTime` where needed, and stop (`break`) as soon as
neither the node nor its alternate needed an update.  `fuel` bounds the
chain length. -/
def updateAncestors (rT : Nat) : Nat → FiberStore → Option Nat → FiberStore
  | _, s, none => s
  | 0, s, some _ => s
  | fuel + 1, s, some n =>
    let node := s n
    if needsChildExpUpdate rT node then
      let s1 := setChildExp s n rT
      let s2 := match node.alternate with
        | some a =>
          if needsChildExpUpdate rT (s1 a) then setChildExp s1 a rT else s1
        | none => s1
      updateAncestors rT fuel s2 node.ret
    else
      match node.alternate with
      | some a =>
        if needsChildExpUpdate rT (s a) then
          updateAncestors rT fuel (setChildExp s a rT) node.ret
        else s
      | none => s

/-- The per-match marking of `propagateContextChange` (part_002 lines
164-208): lower the fiber's `expirationTime` (and its alternate's) to
`renderExpirationTime` where needed, then climb the `return` chain. -/
def markFiber (rT : Nat) (fuel : Nat) (s : FiberStore) (i : Nat) :
    FiberStore :=
  let s1 := if needsExpUpdate rT (s i) then setExp s i rT else s
  let s2 := match (s1 i).alternate with
    | some a => if needsExpUpdate rT (s1 a) then setExp s1 a rT else s1
    | none => s1
  updateAncestors rT fuel s2 ((s2 i).ret)

/-- The dependency-list do-while loop of `propagateContextChange`
(part_002 lines 158-212): for each dependency record matching `context`
with `(observedBits & changedBits) !== 0`, mark the fiber. -/
def visitDeps (ctx : Nat) (changedBits : ℤ) (rT : Nat) (fuel : Nat) :
    List ContextDependency → FiberStore → Nat → FiberStore
  | [], s, _ => s
  | d :: rest, s, i =>
    let s1 := if d.context == ctx && Int.land d.observedBits changedBits != 0
      then markFiber rT fuel s i
      else s
    visitDeps ctx changedBits rT fuel rest s1 i

/-- The no-child branch of `propagateContextChange`'s traversal (part_002
lines 226-242): from `n`, find the next fiber to visit by walking to a
sibling (setting its `return` pointer) or up the `return` chain, and stop
with `none` when back at `workInProgress`. -/
def findSibling (wip : Nat) : Nat → FiberStore → Nat → FiberStore × Option Nat
  | 0, s, _ => (s, none)
  | fuel + 1, s, n =>
    if n = wip then (s, none)
    else
      match (s n).sibling with
      | some sib => (setRet s sib ((s n).ret), some sib)
      | none =>
        match (s n).ret with
        | some r => findSibling wip fuel s r
        | none => (s, none)

/-- The main `while (fiber !== null)` loop of `propagateContextChange`
(part_002 lines 152-245).  Visiting a fiber with a nonempty dependency
list scans (and marks) its dependencies and then descends to its child; a
provider of the same `type` as `workInProgress` is not descended into;
any other fiber is descended into.  `fuel` bounds the number of loop
iterations. -/
def propagateLoop (wip ctx : Nat) (changedBits : ℤ) (rT : Nat) :
    Nat → FiberStore → Option Nat → FiberStore
  | _, s, none => s
  | 0, s, some _ => s
  | fuel + 1, s, some i =>
    let fiber := s i
    let step : FiberStore × Option Nat :=
      match fiber.deps with
      | d :: rest =>
        (visitDeps ctx changedBits rT fuel (d :: rest) s i, fiber.child)
      | [] =>
        if fiber.tag = ContextProvider then
          (s, if fiber.typeId = (s wip).typeId then none else fiber.child)
        else
          (s, fiber.child)
    match step.2 with
    | some nf =>
      propagateLoop wip ctx changedBits rT fuel
        (setRet step.1 nf (some i)) (some nf)
    | none =>
      let next := findSibling wip fuel step.1 i
      propagateLoop wip ctx changedBits rT fuel next.1 next.2

/-- The function `propagateContextChange(workInProgress, context, changedBits,
renderExpirationTime)` (part_002 lines 141-246). -/
def propagateContextChange (fuel : Nat) (s : FiberStore) (wip ctx : Nat)
    (changedBits : ℤ) (rT : Nat) : FiberStore :=
  match (s wip).child with
  | none => s
  | some c =>
    propagateLoop wip ctx changedBits rT fuel (setRet s c (some wip)) (some c)

/-! ## readContext

`readContext` (part_002 lines 281-322) reads three module-level variables
(`currentlyRenderingFiber`, `lastContextDependency`,
`lastContextWithAllBitsObserved`), may append a dependency record to the
currently rendering fiber, and may throw the outside-render invariant.
The module state is embedded as a record; the dependency list reachable
from `currentlyRenderingFiber.firstContextDependency` is kept directly as
a `List`, with `lastDependencyPresent` standing for
`lastContextDependency !== null`. -/

/-- The `observedBits` argument of `readContext`: `void | number |
boolean`. -/
inductive ObservedBits : Type where
  | undef : ObservedBits
  | bool (b : Bool) : ObservedBits
  | num (n : ℤ) : ObservedBits
deriving DecidableEq, Repr

/-- The module-level state of part_002 that `readContext` touches, plus
the dependency list of the currently rendering fiber. -/
structure ReaderState : Type where
  currentlyRenderingFiber : Option Nat
  lastDependencyPresent : Bool
  lastContextWithAllBitsObserved : Option Nat
  fiberDeps : List ContextDependency
deriving DecidableEq, Repr

/-- The state `resetContextDependences()` (part_002 lines 45-51) leaves
behind — the "no render is active" state: all three module variables are
null.  `deps` is whatever dependency list the last rendered fiber kept. -/
def resetReaderState (deps : List ContextDependency) : ReaderState :=
  { currentlyRenderingFiber := none
    lastDependencyPresent := false
    lastContextWithAllBitsObserved := none
    fiberDeps := deps }

/-- The message of the `invariant` thrown by `readContext` (part_002
lines 309-313). -/
def readContextInvariantMsg : String :=
  "Context.unstable_read(): Context can only be read while React is rendering, e.g. inside the render method or getDerivedStateFromProps."

/-- The function `readContext(context, observedBits)` (part_002 lines 281-322).  The
context is identified by `ctx` and its cell is `cell`; `isPrimary` is
`isPrimaryRenderer`.  Returns the new module state and the read value, or
the invariant violation. -/
def readContext (isPrimary : Bool) (s : ReaderState) (ctx : Nat)
    (cell : ContextCell) (observedBits : ObservedBits) :
    Except String (ReaderState × JSVal) :=
  let value := if isPrimary then cell.currentValue else cell.currentValue2
  if s.lastContextWithAllBitsObserved = some ctx then
    -- Nothing to do. We already observe everything in this context.
    .ok (s, value)
  else if observedBits = .bool false ∨ observedBits = .num 0 then
    -- Do not observe any updates.
    .ok (s, value)
  else
    let resolved : ReaderState × ℤ :=
      match observedBits with
      | .num n =>
        if n = maxSigned31BitInt then
          ({ s with lastContextWithAllBitsObserved := some ctx },
            maxSigned31BitInt)
        else (s, n)
      | _ =>
        ({ s with lastContextWithAllBitsObserved := some ctx },
          maxSigned31BitInt)
    let s1 := resolved.1
    let item : ContextDependency := ⟨ctx, resolved.2⟩
    if s1.lastDependencyPresent then
      -- Append a new context item.
      .ok ({ s1 with fiberDeps := s1.fiberDeps ++ [item] }, value)
    else if s1.currentlyRenderingFiber = none then
      .error readContextInvariantMsg
    else
      -- This is the first dependency in the list.
      .ok ({ s1 with fiberDeps := [item], lastDependencyPresent := true },
        value)

/-! ## Devtools wrappers (part_003)

`onScheduleRoot`, `onCommitRoot` and `onCommitUnmount` wrap the injected
hook callbacks in try/catch and log through `console.error` at most once
per session, guarded by the module flag `hasLoggedError`. -/

/-- A hook callback: it either returns or throws. -/
def HookCallback : Type := Unit → Except String Unit

/-- The module-level state of part_003: the three injected callbacks, the
`hasLoggedError` flag, and a count of the `console.error` calls the catch
blocks have made. -/
structure DevToolsState : Type where
  onScheduleFiberRoot : Option HookCallback
  onCommitFiberRoot : Option HookCallback
  onCommitFiberUnmount : Option HookCallback
  hasLoggedError : Bool
  errorLogCount : Nat

/-- The shared catch block: log through `console.error` only in `__DEV__`
and only when `hasLoggedError` is still unset (part_003 lines 81-86,
105-112, 120-127). -/
def logHookError (dev : Bool) (s : DevToolsState) : DevToolsState :=
  if dev && !s.hasLoggedError then
    { s with hasLoggedError := true, errorLogCount := s.errorLogCount + 1 }
  else s

/-- The wrapper `onScheduleRoot(root, children)` (part_003 lines 76-89): only in
`__DEV__`, call the injected `onScheduleFiberRoot` inside try/catch. -/
def onScheduleRoot (dev : Bool) (s : DevToolsState) :
    Except String DevToolsState :=
  if dev then
    match s.onScheduleFiberRoot with
    | some f =>
      match f () with
      | .ok _ => .ok s
      | .error _ => .ok (logHookError dev s)
    | none => .ok s
  else .ok s

/-- The wrapper `onCommitRoot(root, expirationTime)` (part_003 lines 91-114): call
the injected `onCommitFiberRoot` inside try/catch. -/
def onCommitRoot (dev : Bool) (s : DevToolsState) :
    Except String DevToolsState :=
  match s.onCommitFiberRoot with
  | some f =>
    match f () with
    | .ok _ => .ok s
    | .error _ => .ok (logHookError dev s)
  | none => .ok s

/-- The wrapper `onCommitUnmount(fiber)` (part_003 lines 116-129): call the injected
`onCommitFiberUnmount` inside try/catch. -/
def onCommitUnmount (dev : Bool) (s : DevToolsState) :
    Except String DevToolsState :=
  match s.onCommitFiberUnmount with
  | some f =>
    match f () with
    | .ok _ => .ok s
    | .error _ => .ok (logHookError dev s)
  | none => .ok s

/-- One call of a session against the part_003 wrappers. -/
inductive HookEvent : Type where
  | schedule : HookEvent
  | commitRoot : HookEvent
  | commitUnmount : HookEvent

/-- Dispatch one session event to its wrapper. -/
def runHookEvent (dev : Bool) (e : HookEvent) (s : DevToolsState) :
    Except String DevToolsState :=
  match e with
  | .schedule => onScheduleRoot dev s
  | .commitRoot => onCommitRoot dev s
  | .commitUnmount => onCommitUnmount dev s

/-- Run a whole session of wrapper calls, propagating any uncaught
error. -/
def runHookSession (dev : Bool) : List HookEvent → DevToolsState →
    Except String DevToolsState
  | [], s => .ok s
  | e :: rest, s =>
    match runHookEvent dev e s with
    | .ok s1 => runHookSession dev rest s1
    | .error msg => .error msg

/-- The initial module state of part_003: no callbacks injected yet,
`hasLoggedError = false` (lines 23-27), no logs emitted.  `injectInternals`
only ever replaces the three callbacks. -/
def initDevToolsState (sched commit unmount : Option HookCallback) :
    DevToolsState :=
  { onScheduleFiberRoot := sched
    onCommitFiberRoot := commit
    onCommitFiberUnmount := unmount
    hasLoggedError := false
    errorLogCount := 0 }

/-! ## installHook (part_001)

`installHook(target)` installs the devtools hook object under the
well-known property `__REACT_DEVTOOLS_GLOBAL_HOOK__` of `target`, unless
that property already exists, in which case it returns `null` without
touching the target.  The hook's mutable collections are embedded as
association lists; its function members carry no data and are omitted. -/

/-- The `DevToolsHookSettings` record, with the defaults of part_001
lines 726-733. -/
structure HookSettings : Type where
  appendComponentStack : Bool
  breakOnConsoleErrors : Bool
  showInlineWarningsAndErrors : Bool
  hideConsoleLogsInStrictMode : Bool
deriving DecidableEq, Repr

/-- The data fields of the hook object literal (part_001 lines 720-772);
maps are embedded as association lists over ids, `uidCounter` (line 323)
starts at 0, `supportsFiber` is the legacy `true` flag. -/
structure DevToolsHook : Type where
  fiberRoots : List (Nat × List Nat)
  rendererInterfaces : List (Nat × Nat)
  listeners : List (String × List Nat)
  renderers : List (Nat × Nat)
  workTagMapByRendererId : List (Nat × Nat)
  backends : List (String × Nat)
  settings : HookSettings
  supportsFiber : Bool
  uidCounter : Nat
deriving DecidableEq, Repr

/-- The install target (e.g. `window`): the embedding keeps only the
`__REACT_DEVTOOLS_GLOBAL_HOOK__` slot, present iff
`target.hasOwnProperty` is true for it. -/
structure HookTarget : Type where
  globalHookSlot : Option DevToolsHook
deriving DecidableEq, Repr

/-- The freshly constructed hook object of `installHook` (part_001 lines
719-772): empty collections, injected or default settings. -/
def mkDevToolsHook (injectedSettings : Option HookSettings) : DevToolsHook :=
  { fiberRoots := []
    rendererInterfaces := []
    listeners := []
    renderers := []
    workTagMapByRendererId := []
    backends := []
    settings := injectedSettings.getD
      { appendComponentStack := true
        breakOnConsoleErrors := false
        showInlineWarningsAndErrors := false
        hideConsoleLogsInStrictMode := false }
    supportsFiber := true
    uidCounter := 0 }

/-- The function `installHook(target, injectedSettings)` (part_001 lines 85-91 and
775-790): return `null` at once when the target already has the global
hook property; otherwise build the hook, define the property on the
target, and return the hook. -/
def installHook (target : HookTarget) (injectedSettings : Option HookSettings) :
    Option DevToolsHook × HookTarget :=
  if target.globalHookSlot.isSome then
    (none, target)
  else
    let hook := mkDevToolsHook injectedSettings
    (some hook, { target with globalHookSlot := some hook })

/-! ## The commit bracket (ReactDOMFiber.js)

`prepareForCommit` / `resetAfterCommit` (src/src/renderers/dom/fiber/
ReactDOMFiber.js lines 98-109) save the event-dispatch enabled flag and
the current selection into two module variables, disable dispatch, and
later restore both and null the slots. -/

/-- The host state the commit bracket acts on.  `eventsEnabled` and
`selectionInformation` are the two module variables of ReactDOMFiber.js
(null between commits); `emitterEnabled` embeds
`ReactBrowserEventEmitter`'s enabled flag and `selection` the live
document selection (both modelled collaborators). -/
structure HostCommitState : Type where
  eventsEnabled : Option Bool
  selectionInformation : Option Nat
  emitterEnabled : Bool
  selection : Nat
deriving DecidableEq, Repr

/-- Modelled from the spec: `ReactBrowserEventEmitter.setEnabled(x)` (not
under src/) coerces its argument with `!!` and stores it as the enabled
flag (spec: "suspend/resume input handling"). -/
def emitterSetEnabled (s : HostCommitState) (x : Option Bool) :
    HostCommitState :=
  { s with emitterEnabled := x.getD false }

/-- Modelled from the spec: `ReactInputSelection.restoreSelection(info)`
(not under src/) restores a previously captured selection (spec:
"snapshot/restore focus"); a null snapshot restores nothing. -/
def restoreSelection (s : HostCommitState) (info : Option Nat) :
    HostCommitState :=
  match info with
  | some sel => { s with selection := sel }
  | none => s

/-- The host hook `prepareForCommit()` (ReactDOMFiber.js lines 98-102). -/
def prepareForCommit (s : HostCommitState) : HostCommitState :=
  let s1 := { s with eventsEnabled := some s.emitterEnabled }
  let s2 := emitterSetEnabled s1 (some false)
  { s2 with selectionInformation := some s2.selection }

/-- The host hook `resetAfterCommit()` (ReactDOMFiber.js lines 104-109). -/
def resetAfterCommit (s : HostCommitState) : HostCommitState :=
  let s1 := restoreSelection s s.selectionInformation
  let s2 := { s1 with selectionInformation := none }
  let s3 := emitterSetEnabled s2 s2.eventsEnabled
  { s3 with eventsEnabled := none }

/-! ## VerticalScrollView (react-devtools-scheduling-profiler)

`_setScrollState` (VerticalScrollView.js lines 251-273) clamps a proposed
scroll state and commits it only when it differs from the current one;
`scrollBy` (lines 173-184) translates the current state and hands it to
`_setScrollState`. -/

/-- A scroll state: a (nonpositive) content offset and a content
length. -/
structure ScrollState : Type where
  offset : ℚ
  length : ℚ
deriving DecidableEq, Repr

/-- Modelled from the spec: `clamp(min, max, value)` of the scroll-state
utilities (`./utils/scrollState`, not under src/). -/
def clampQ (lo hi v : ℚ) : ℚ := max lo (min hi v)

/-- Modelled from the spec: `clampState({state, minContentLength,
maxContentLength, containerLength})` (not under src/) clamps the length
into `[minContentLength, maxContentLength]` and the offset into
`[containerLength - clampedLength, 0]` — the claim's "clamps it against
the content and container heights". -/
def clampState (state : ScrollState) (minContentLength maxContentLength
    containerLength : ℚ) : ScrollState :=
  let clampedLength := clampQ minContentLength maxContentLength state.length
  let clampedOffset := clampQ (containerLength - clampedLength) 0 state.offset
  ⟨clampedOffset, clampedLength⟩

/-- Modelled from the spec: `translateState({state, delta,
containerLength})` (not under src/) shifts the offset by `delta`, clamped
into `[containerLength - length, 0]`, keeping the length. -/
def translateState (state : ScrollState) (delta containerLength : ℚ) :
    ScrollState :=
  ⟨clampQ (containerLength - state.length) 0 (state.offset + delta),
    state.length⟩

/-- Modelled from the spec: `areScrollStatesEqual` (not under src/)
compares the two fields. -/
def areScrollStatesEqual (a b : ScrollState) : Bool :=
  a.offset == b.offset && a.length == b.length

/-- The parts of a `VerticalScrollView` instance the two methods touch:
`_scrollState`, the content view's frame height, the view's own frame
height, whether an `_onChangeCallback` is registered, how often it has
been invoked, and its last argument. -/
structure ScrollViewState : Type where
  scrollState : ScrollState
  contentHeight : ℚ
  containerHeight : ℚ
  hasCallback : Bool
  callbackCount : Nat
  lastCallbackArg : Option (ScrollState × ℚ)
deriving DecidableEq, Repr

/-- The method `_setScrollState(proposedState)` (VerticalScrollView.js lines
251-273): clamp with `minContentLength = maxContentLength =
this._contentView.frame.size.height` and `containerLength =
this.frame.size.height`; commit, notify and return `true` only on an
actual change. -/
def setScrollState (v : ScrollViewState) (proposed : ScrollState) :
    Bool × ScrollViewState :=
  let height := v.contentHeight
  let clamped := clampState proposed height height v.containerHeight
  if !areScrollStatesEqual clamped v.scrollState then
    let v1 := { v with scrollState := clamped }
    let v2 :=
      if v1.hasCallback then
        { v1 with callbackCount := v1.callbackCount + 1,
                  lastCallbackArg := some (clamped, v1.containerHeight) }
      else v1
    (true, v2)
  else
    (false, v)

/-- The method `scrollBy(deltaY)` (VerticalScrollView.js lines 173-184). -/
def scrollBy (v : ScrollViewState) (deltaY : ℚ) : Bool × ScrollViewState :=
  let newState := translateState v.scrollState (-deltaY) v.containerHeight
  setScrollState v newState

/-! ## Claim C2: marking a visited fiber with a matching dependency

The predicates below state the post-condition of the per-match marking
(part_002 lines 164-208): an expiration field is "at least as urgent as
`rT`" when it is nonzero and at most `rT` (smaller nonzero expiration
times are more urgent in this file). -/

/-- Field `fb.expirationTime` is scheduled at least as urgently as `rT`. -/
def urgentExp (rT : Nat) (fb : Fiber) : Prop :=
  fb.expirationTime ≠ NoWork ∧ fb.expirationTime ≤ rT

/-- Field `fb.childExpirationTime` is at least as urgent as `rT`. -/
def urgentChild (rT : Nat) (fb : Fiber) : Prop :=
  fb.childExpirationTime ≠ NoWork ∧ fb.childExpirationTime ≤ rT

/-- The alternate of `fb` (when it exists) has an at-least-as-urgent
`childExpirationTime`. -/
def altChildOk (rT : Nat) (s : FiberStore) (fb : Fiber) : Prop :=
  ∀ a, fb.alternate = some a → urgentChild rT (s a)

/-- Chains `RetChain s o l`: following `return` pointers from `o` visits exactly
the fibers of `l` and ends at null. -/
inductive RetChain (s : FiberStore) : Option Nat → List Nat → Prop where
  | nil : RetChain s none []
  | cons {n : Nat} {r : Option Nat} {l : List Nat} :
      (s n).ret = r → RetChain s r l → RetChain s (some n) (n :: l)

/-- The aliasing discipline of the double-buffered tree on a return
chain: the chain has no duplicates, no chain fiber's alternate lies on
the chain, and distinct chain fibers have distinct alternates. -/
def chainSeparated (s : FiberStore) (l : List Nat) : Prop :=
  l.Nodup ∧
  (∀ n ∈ l, ∀ a, (s n).alternate = some a → a ∉ l) ∧
  (∀ n ∈ l, ∀ m ∈ l, n ≠ m →
    ∀ a b, (s n).alternate = some a → (s m).alternate = some b → a ≠ b)

/-- The consequence of the spec's always-holding child-expiration-time
summarization that the `break` of the ancestor climb relies on: whenever
a chain fiber and its alternate are already at least as urgent as `rT`,
so are its parent and the parent's alternate ("the rest of the ancestor
path already has sufficient priority"). -/
def chainSufficiency (rT : Nat) (s : FiberStore) (l : List Nat) : Prop :=
  ∀ n ∈ l, urgentChild rT (s n) → altChildOk rT s (s n) →
    ∀ p, (s n).ret = some p → urgentChild rT (s p) ∧ altChildOk rT s (s p)

/-- Two arenas agree on every field the marking never writes. -/
def FrameEq (s s' : FiberStore) : Prop :=
  ∀ j, (s' j).tag = (s j).tag ∧ (s' j).typeId = (s j).typeId ∧
    (s' j).deps = (s j).deps ∧ (s' j).child = (s j).child ∧
    (s' j).sibling = (s j).sibling ∧ (s' j).ret = (s j).ret ∧
    (s' j).alternate = (s j).alternate

/-- State `s'` is reachable from `s` by marking writes only: the structural
fields agree and every expiration field is either unchanged or has been
written `rT`. -/
def MarksToward (rT : Nat) (s s' : FiberStore) : Prop :=
  FrameEq s s' ∧
  (∀ j, (s' j).expirationTime = (s j).expirationTime ∨
    (s' j).expirationTime = rT) ∧
  (∀ j, (s' j).childExpirationTime = (s j).childExpirationTime ∨
    (s' j).childExpirationTime = rT)

/-- The at-most-one-log invariant on the part_003 module state: at most
one `console.error` so far, and none before `hasLoggedError` is set. -/
def LogBound (s : DevToolsState) : Prop :=
  s.errorLogCount ≤ 1 ∧ (s.hasLoggedError = false → s.errorLogCount = 0)

/-- The spec's `Provider(X) > Provider(X) > Consumer` tree as a fiber
arena: fiber 0 is the outer provider (the propagation root), fiber 1 a
nested provider of the same `type` with no context dependencies, fiber 2
a consumer below it whose dependency list observes `ctx` with bits
`obs`, and fiber 3 the consumer's alternate. -/
def nestedProviderStore (providerType ctx : Nat) (obs : ℤ)
    (e1 c1 e2 c2 e3 c3 : Nat) : FiberStore := fun i =>
  if i = 0 then
    { tag := ContextProvider, typeId := providerType, deps := []
      expirationTime := 0, childExpirationTime := 0
      child := some 1, sibling := none, ret := none, alternate := none }
  else if i = 1 then
    { tag := ContextProvider, typeId := providerType, deps := []
      expirationTime := e1, childExpirationTime := c1
      child := some 2, sibling := none, ret := some 0, alternate := none }
  else if i = 2 then
    { tag := 0, typeId := 99, deps := [⟨ctx, obs⟩]
      expirationTime := e2, childExpirationTime := c2
      child := none, sibling := none, ret := some 1, alternate := some 3 }
  else
    { tag := 0, typeId := 99, deps := [⟨ctx, obs⟩]
      expirationTime := e3, childExpirationTime := c3
      child := none, sibling := none, ret := some 2, alternate := some 2 }

/-- A concrete three-fiber return chain for the claim C2 witness: fiber
5 (the visited dependent), its parent 3 and grandparent 2. -/
def chainWitnessStore : FiberStore := fun i =>
  if i = 5 then
    { tag := 0, typeId := 0, deps := [⟨7, 1⟩], expirationTime := 0
      childExpirationTime := 0, child := none, sibling := none
      ret := some 3, alternate := none }
  else if i = 3 then
    { tag := 0, typeId := 0, deps := [], expirationTime := 0
      childExpirationTime := 0, child := some 5, sibling := none
      ret := some 2, alternate := none }
  else if i = 2 then
    { tag := 0, typeId := 0, deps := [], expirationTime := 0
      childExpirationTime := 0, child := some 3, sibling := none
      ret := none, alternate := none }
  else
    { tag := 0, typeId := 0, deps := [], expirationTime := 0
      childExpirationTime := 0, child := none, sibling := none
      ret := none, alternate := none }

/-! ## Theorems -/

/-- The inlined polyfill condition of `calculateChangedBits` agrees with
`Object.is` on every pair of values. -/
theorem noChangeCondition_eq_objectIs (a b : JSVal) :
    noChangeCondition a b = jsObjectIs a b := by
  cases a <;> cases b <;>
    simp [noChangeCondition, jsStrictEq, jsObjectIs, jsOneOver]

/-- The constant `maxSigned31BitInt` is a 32-bit fixed point of `| 0`. -/
theorem toInt32_maxSigned31BitInt : toInt32 maxSigned31BitInt = maxSigned31BitInt := by
  decide

/-- Claim C3: `pushProvider` followed by `popProvider` is a round trip on
the whole provider state — in particular the context's current-value and
changed-bits fields (`_currentValue`/`_changedBits` for the primary
renderer, `_currentValue2`/`_changedBits2` otherwise) return to the
values they held before the push, and the cursors and the shared stack
are restored as well. -/
theorem popProvider_pushProvider (isPrimary : Bool) (s : ProviderState)
    (newValue : JSVal) (changedBits : ℤ) :
    popProvider isPrimary (pushProvider isPrimary s newValue changedBits) = s := by
  rcases s with ⟨⟨cv, cb, cv2, cb2⟩, vc, bc, st⟩
  cases isPrimary <;>
    simp [popProvider, pushProvider, pushValueCursor, pushBitsCursor,
      popValueCursor, popBitsCursor]

/-- Claim C4, counterexample: with a user-supplied comparator that
returns 0, `calculateChangedBits` returns 0 on two values that are not
`Object.is`-equal, so "returns 0 exactly when the two values are
Object.is-equal" fails for such a context. -/
theorem calculateChangedBits_not_iff_objectIs :
    ¬ ((calculateChangedBits (some (fun _ _ => 0)) (.other 0) (.other 1) = 0) ↔
        jsObjectIs (.other 1) (.other 0) = true) := by
  decide

/-- Claim C4, amended: `calculateChangedBits` returns 0 whenever the two
values are `Object.is`-equal (for any comparator); for a context with no
user-supplied comparator it returns 0 exactly when they are
`Object.is`-equal; `calculateChangedBits(context, NaN, NaN)` is 0 for
every context, and `calculateChangedBits(context, 0, -0)` is the nonzero
`MAX_SIGNED_31_BIT_INT` when the context has no comparator. -/
theorem calculateChangedBits_objectIs_spec :
    (∀ (cmp : Option (JSVal → JSVal → ℤ)) (oldV newV : JSVal),
        jsObjectIs oldV newV = true → calculateChangedBits cmp newV oldV = 0) ∧
    (∀ oldV newV : JSVal,
        calculateChangedBits none newV oldV = 0 ↔ jsObjectIs oldV newV = true) ∧
    (∀ cmp : Option (JSVal → JSVal → ℤ),
        calculateChangedBits cmp .nan .nan = 0) ∧
    calculateChangedBits none (.zero false) (.zero true) = maxSigned31BitInt ∧
    maxSigned31BitInt ≠ 0 := by
  refine ⟨?_, ?_, ?_, ?_, ?_⟩
  · intro cmp oldV newV h
    simp [calculateChangedBits, noChangeCondition_eq_objectIs, h]
  · intro oldV newV
    by_cases h : jsObjectIs oldV newV = true
    · simp [calculateChangedBits, noChangeCondition_eq_objectIs, h]
    · simp [calculateChangedBits, noChangeCondition_eq_objectIs, h,
        toInt32_maxSigned31BitInt]
      decide
  · intro cmp
    simp [calculateChangedBits, noChangeCondition_eq_objectIs, jsObjectIs]
  · simp [calculateChangedBits, noChangeCondition_eq_objectIs, jsObjectIs,
      toInt32_maxSigned31BitInt]
  · simp [maxSigned31BitInt]

/-- Witness for the amended claim C4 at concrete inputs. -/
theorem calculateChangedBits_objectIs_spec_witness :
    calculateChangedBits (some (fun _ _ => 7)) (.other 3) (.other 3) = 0 := by
  exact calculateChangedBits_objectIs_spec.1 _ _ _ (by decide)

/-- Claim C6: `installHook` is idempotent on the global slot — on a
target that already has the `__REACT_DEVTOOLS_GLOBAL_HOOK__` property it
returns `null` and leaves the target (the installed hook included)
unchanged; on a target without it, it installs a fresh hook and returns
that same hook. -/
theorem installHook_idempotent :
    (∀ (t : HookTarget) (cfg : Option HookSettings) (h : DevToolsHook),
        t.globalHookSlot = some h → installHook t cfg = (none, t)) ∧
    (∀ (t : HookTarget) (cfg : Option HookSettings),
        t.globalHookSlot = none →
          installHook t cfg =
            (some (mkDevToolsHook cfg),
              { t with globalHookSlot := some (mkDevToolsHook cfg) })) := by
  constructor
  · intro t cfg h hslot
    simp [installHook, hslot]
  · intro t cfg hslot
    simp [installHook, hslot]

/-- Witness for claim C6: both branches at concrete targets. -/
theorem installHook_idempotent_witness :
    installHook ⟨some (mkDevToolsHook none)⟩ none =
      (none, ⟨some (mkDevToolsHook none)⟩) ∧
    installHook ⟨none⟩ none =
      (some (mkDevToolsHook none), ⟨some (mkDevToolsHook none)⟩) :=
  ⟨installHook_idempotent.1 _ none _ rfl, installHook_idempotent.2 _ none rfl⟩

/-- Claim C8: the commit bracket is a round trip on the host event /
selection state.  Whatever the commit mutations do to the live emitter
flag and selection in between (`e` and `sel`), `resetAfterCommit`
restores the selection captured by `prepareForCommit`, restores the
event-dispatch flag to its recorded pre-commit value, and clears both
saved slots back to null. -/
theorem commit_bracket_roundtrip (s : HostCommitState) (e : Bool) (sel : Nat) :
    resetAfterCommit
        { prepareForCommit s with emitterEnabled := e, selection := sel } =
      { s with eventsEnabled := none, selectionInformation := none } := by
  rcases s with ⟨ee, si, em, sl⟩
  simp [prepareForCommit, resetAfterCommit, emitterSetEnabled, restoreSelection]

/-- Claim C9: `readContext` with `observedBits` equal to `false` or `0`
returns the context's current value (per renderer) without touching the
module state or the fiber's dependency list, and without the
outside-render invariant — for every state, including states where no
fiber is rendering. -/
theorem readContext_unobserved (isPrimary : Bool) (s : ReaderState)
    (ctx : Nat) (cell : ContextCell) (observedBits : ObservedBits)
    (h : observedBits = .bool false ∨ observedBits = .num 0) :
    readContext isPrimary s ctx cell observedBits =
      .ok (s, if isPrimary then cell.currentValue else cell.currentValue2) := by
  rcases h with h | h <;> subst h <;>
    by_cases hc : s.lastContextWithAllBitsObserved = some ctx <;>
    simp [readContext, hc]

/-- Witness for claim C9: a concrete unobserved read outside any render
returns the current value without an error. -/
theorem readContext_unobserved_witness :
    readContext true (resetReaderState []) 0 ⟨.other 5, 0, .other 6, 0⟩
        (.bool false) = .ok (resetReaderState [], .other 5) := by
  simpa using readContext_unobserved true (resetReaderState []) 0
    ⟨.other 5, 0, .other 6, 0⟩ (.bool false) (Or.inl rfl)

/-- Claim C5, counterexample: a `readContext` call outside any active
render with `observedBits = 0` returns the current value instead of
signalling the invariant violation, so "for every observedBits argument
... throws" fails. -/
theorem readContext_outside_render_returns :
    readContext true (resetReaderState []) 0 ⟨.other 5, 0, .other 6, 0⟩
        (.num 0) = .ok (resetReaderState [], .other 5) := rfl

/-- Claim C5, amended: calling `readContext` while no render is active
(the state `resetContextDependences` leaves behind) signals the
invariant violation for every `observedBits` argument other than the
non-observing `false` and `0`. -/
theorem readContext_outside_render_throws (isPrimary : Bool)
    (deps : List ContextDependency) (ctx : Nat) (cell : ContextCell)
    (observedBits : ObservedBits)
    (h0 : observedBits ≠ .bool false) (h1 : observedBits ≠ .num 0) :
    readContext isPrimary (resetReaderState deps) ctx cell observedBits =
      .error readContextInvariantMsg := by
  cases observedBits with
  | undef => simp [readContext, resetReaderState]
  | bool b =>
    cases b
    · exact absurd rfl h0
    · simp [readContext, resetReaderState]
  | num n =>
    have hn0 : n ≠ 0 := by
      intro h
      exact h1 (by simp [h])
    by_cases hn : n = (1073741823 : ℤ) <;>
      simp [readContext, resetReaderState, maxSigned31BitInt, hn, hn0]

/-- Witness for the amended claim C5: the dependency-recording read forms
of `observedBits` all throw outside a render. -/
theorem readContext_outside_render_throws_witness :
    readContext true (resetReaderState []) 0 ⟨.other 5, 0, .other 6, 0⟩
        .undef = .error readContextInvariantMsg := by
  exact readContext_outside_render_throws true [] 0 _ .undef
    (by decide) (by decide)


/-- The shared catch block preserves the at-most-one-log invariant. -/
theorem logHookError_bound (dev : Bool) (s : DevToolsState)
    (h : LogBound s) : LogBound (logHookError dev s) := by
  unfold logHookError
  by_cases hd : (dev && !s.hasLoggedError) = true
  · have hf : s.hasLoggedError = false := by
      simp only [Bool.and_eq_true, Bool.not_eq_true'] at hd
      exact hd.2
    have h0 : s.errorLogCount = 0 := h.2 hf
    simp [hd, LogBound, h0]
  · simpa [hd] using h

/-- Every wrapper call returns normally and preserves the
at-most-one-log invariant. -/
theorem runHookEvent_ok (dev : Bool) (e : HookEvent) (s : DevToolsState) :
    ∃ s1, runHookEvent dev e s = .ok s1 ∧ (LogBound s → LogBound s1) := by
  cases e with
  | schedule =>
    unfold runHookEvent onScheduleRoot
    cases dev with
    | false => exact ⟨s, by simp, fun h => h⟩
    | true =>
      rcases hs : s.onScheduleFiberRoot with _ | f
      · exact ⟨s, by simp [hs], fun h => h⟩
      · rcases hf : f () with err | u
        · exact ⟨logHookError true s, by simp [hs, hf],
            logHookError_bound true s⟩
        · exact ⟨s, by simp [hs, hf], fun h => h⟩
  | commitRoot =>
    unfold runHookEvent onCommitRoot
    rcases hs : s.onCommitFiberRoot with _ | f
    · exact ⟨s, by simp [hs], fun h => h⟩
    · rcases hf : f () with err | u
      · exact ⟨logHookError dev s, by simp [hs, hf],
          logHookError_bound dev s⟩
      · exact ⟨s, by simp [hs, hf], fun h => h⟩
  | commitUnmount =>
    unfold runHookEvent onCommitUnmount
    rcases hs : s.onCommitFiberUnmount with _ | f
    · exact ⟨s, by simp [hs], fun h => h⟩
    · rcases hf : f () with err | u
      · exact ⟨logHookError dev s, by simp [hs, hf],
          logHookError_bound dev s⟩
      · exact ⟨s, by simp [hs, hf], fun h => h⟩

/-- A whole session of wrapper calls returns normally and keeps the
invariant. -/
theorem runHookSession_ok (dev : Bool) (evs : List HookEvent) :
    ∀ s : DevToolsState, LogBound s →
      ∃ s1, runHookSession dev evs s = .ok s1 ∧ LogBound s1 := by
  induction evs with
  | nil => exact fun s h => ⟨s, rfl, h⟩
  | cons e rest ih =>
    intro s h
    obtain ⟨s1, he, hb⟩ := runHookEvent_ok dev e s
    obtain ⟨s2, hs2, hb2⟩ := ih s1 (hb h)
    exact ⟨s2, by simp [runHookSession, he, hs2], hb2⟩

/-- Claim C7: whatever the injected hook callbacks do (throwing
included), every call of `onScheduleRoot`, `onCommitRoot` and
`onCommitUnmount` returns normally, and across an entire session — any
sequence of such calls from the initial module state — the catch blocks
emit at most one `console.error`. -/
theorem devtools_hook_errors_caught (dev : Bool) (evs : List HookEvent)
    (sched commit unmount : Option HookCallback) :
    (∀ s : DevToolsState, ∃ s1, onScheduleRoot dev s = .ok s1) ∧
    (∀ s : DevToolsState, ∃ s1, onCommitRoot dev s = .ok s1) ∧
    (∀ s : DevToolsState, ∃ s1, onCommitUnmount dev s = .ok s1) ∧
    (∃ s1, runHookSession dev evs (initDevToolsState sched commit unmount) =
        .ok s1 ∧ s1.errorLogCount ≤ 1) := by
  refine ⟨?_, ?_, ?_, ?_⟩
  · intro s
    obtain ⟨s1, he, _⟩ := runHookEvent_ok dev .schedule s
    exact ⟨s1, he⟩
  · intro s
    obtain ⟨s1, he, _⟩ := runHookEvent_ok dev .commitRoot s
    exact ⟨s1, he⟩
  · intro s
    obtain ⟨s1, he, _⟩ := runHookEvent_ok dev .commitUnmount s
    exact ⟨s1, he⟩
  · obtain ⟨s1, hr, hb⟩ := runHookSession_ok dev evs
      (initDevToolsState sched commit unmount) ⟨Nat.zero_le 1, fun _ => rfl⟩
    exact ⟨s1, hr, hb.1⟩

/-! ## Scroll-state lemmas (claim C10) -/

/-- Clamping into the degenerate interval `[h, h]` yields `h`. -/
theorem clampQ_same (h v : ℚ) : clampQ h h v = h :=
  max_eq_left (min_le_left h v)

/-- The function `clampQ` is idempotent for a fixed interval. -/
theorem clampQ_idem (lo hi x : ℚ) :
    clampQ lo hi (clampQ lo hi x) = clampQ lo hi x := by
  unfold clampQ
  rcases le_total lo (min hi x) with h | h
  · rw [max_eq_right h, min_eq_right (min_le_left hi x), max_eq_right h]
  · rw [max_eq_left h, max_eq_left (min_le_right hi lo)]

/-- The test `areScrollStatesEqual` decides equality of scroll states. -/
theorem areScrollStatesEqual_iff (a b : ScrollState) :
    areScrollStatesEqual a b = true ↔ a = b := by
  rcases a with ⟨ao, al⟩
  rcases b with ⟨bo, bl⟩
  simp [areScrollStatesEqual, ScrollState.mk.injEq]

/-- Claim C10: `_setScrollState` is a no-op returning `false` (state
untouched, no `onChange` call) exactly when clamping the proposed state
yields the current state; otherwise it commits the clamped state,
invokes the callback once (when one is registered), and returns `true`;
and under the maintained invariant that the stored length equals the
content height, `scrollBy` returns `true` iff the visible offset
actually changed. -/
theorem setScrollState_spec :
    (∀ (v : ScrollViewState) (p : ScrollState),
        clampState p v.contentHeight v.contentHeight v.containerHeight =
            v.scrollState →
          setScrollState v p = (false, v)) ∧
    (∀ (v : ScrollViewState) (p : ScrollState),
        clampState p v.contentHeight v.contentHeight v.containerHeight ≠
            v.scrollState →
          (setScrollState v p).1 = true ∧
          (setScrollState v p).2.scrollState =
            clampState p v.contentHeight v.contentHeight v.containerHeight ∧
          (setScrollState v p).2.callbackCount =
            (if v.hasCallback then v.callbackCount + 1 else v.callbackCount) ∧
          (v.hasCallback = false →
            (setScrollState v p).2 =
              { v with scrollState := clampState p v.contentHeight v.contentHeight v.containerHeight })) ∧
    (∀ (v : ScrollViewState) (d : ℚ),
        v.scrollState.length = v.contentHeight →
          ((scrollBy v d).1 = true ↔
            (scrollBy v d).2.scrollState.offset ≠ v.scrollState.offset)) := by
  refine ⟨?_, ?_, ?_⟩
  · intro v p hc
    have he : areScrollStatesEqual
        (clampState p v.contentHeight v.contentHeight v.containerHeight)
        v.scrollState = true := (areScrollStatesEqual_iff _ _).mpr hc
    simp [setScrollState, he]
  · intro v p hc
    have he : areScrollStatesEqual
        (clampState p v.contentHeight v.contentHeight v.containerHeight)
        v.scrollState = false := by
      rcases hb : areScrollStatesEqual
          (clampState p v.contentHeight v.contentHeight v.containerHeight)
          v.scrollState with _ | _
      · rfl
      · exact absurd ((areScrollStatesEqual_iff _ _).mp hb) hc
    by_cases hcb : v.hasCallback = true <;>
      simp [setScrollState, he, hcb]
  · intro v d hL
    rcases v with ⟨⟨off, len⟩, h, ch, hcb, cnt, arg⟩
    have hL2 : len = h := hL
    subst hL2
    simp only [scrollBy, translateState, setScrollState, clampState,
      ScrollViewState.contentHeight, ScrollViewState.containerHeight,
      ScrollViewState.scrollState, clampQ_same, clampQ_idem]
    by_cases hx : clampQ (ch - len) 0 (off + -d) = off
    · simp [hx, areScrollStatesEqual]
    · have he : areScrollStatesEqual ⟨clampQ (ch - len) 0 (off + -d), len⟩
          ⟨off, len⟩ = false := by
        rcases hb : areScrollStatesEqual ⟨clampQ (ch - len) 0 (off + -d), len⟩
            ⟨off, len⟩ with _ | _
        · rfl
        · have := (areScrollStatesEqual_iff _ _).mp hb
          exact absurd (congrArg ScrollState.offset this) hx
      by_cases hc : hcb = true <;> simp [he, hx, hc]

/-- Witness for claim C10 at concrete inputs: an absorbed proposal is a
no-op returning `false`, a real scroll commits and returns `true`, and
`scrollBy 1` reports a changed offset. -/
theorem setScrollState_spec_witness :
    setScrollState ⟨⟨0, 10⟩, 10, 5, true, 0, none⟩ ⟨0, 10⟩ =
      (false, ⟨⟨0, 10⟩, 10, 5, true, 0, none⟩) ∧
    (setScrollState ⟨⟨0, 10⟩, 10, 5, true, 0, none⟩ ⟨-3, 10⟩).1 = true ∧
    ((scrollBy ⟨⟨0, 10⟩, 10, 5, true, 0, none⟩ 1).1 = true ↔
      (scrollBy ⟨⟨0, 10⟩, 10, 5, true, 0, none⟩ 1).2.scrollState.offset ≠
        (⟨⟨0, 10⟩, 10, 5, true, 0, none⟩ : ScrollViewState).scrollState.offset) :=
  ⟨setScrollState_spec.1 ⟨⟨0, 10⟩, 10, 5, true, 0, none⟩ ⟨0, 10⟩
      (by norm_num [clampState, clampQ, max_def, min_def]),
    (setScrollState_spec.2.1 ⟨⟨0, 10⟩, 10, 5, true, 0, none⟩ ⟨-3, 10⟩
      (by norm_num [clampState, clampQ, max_def, min_def])).1,
    setScrollState_spec.2.2 ⟨⟨0, 10⟩, 10, 5, true, 0, none⟩ 1 rfl⟩

/-! ## Claim C1: a nested provider of the same type stops the walk -/


/-- Claim C1: in a `Provider(X) > Provider(X) > Consumer` tree, a change
propagated from the outer provider never reaches the consumer below the
nested provider of the same context type: even though the consumer's
dependency record matches the changed bits, `propagateContextChange`
leaves the consumer's fiber (and its alternate) with their expiration
and child-expiration times unchanged, for every fuel, bit pattern and
initial timing. -/
theorem propagate_stops_at_nested_provider
    (providerType ctx : Nat) (obs changedBits : ℤ) (rT fuel : Nat)
    (e1 c1 e2 c2 e3 c3 : Nat)
    (hmatch : Int.land obs changedBits ≠ 0) :
    (propagateContextChange fuel
        (nestedProviderStore providerType ctx obs e1 c1 e2 c2 e3 c3)
        0 ctx changedBits rT 2).expirationTime = e2 ∧
    (propagateContextChange fuel
        (nestedProviderStore providerType ctx obs e1 c1 e2 c2 e3 c3)
        0 ctx changedBits rT 2).childExpirationTime = c2 ∧
    (propagateContextChange fuel
        (nestedProviderStore providerType ctx obs e1 c1 e2 c2 e3 c3)
        0 ctx changedBits rT 3).expirationTime = e3 ∧
    (propagateContextChange fuel
        (nestedProviderStore providerType ctx obs e1 c1 e2 c2 e3 c3)
        0 ctx changedBits rT 3).childExpirationTime = c3 := by
  rcases fuel with _ | fuel
  · simp [propagateContextChange, propagateLoop, nestedProviderStore,
      setRet, updF]
  · rcases fuel with _ | fuel
    · simp [propagateContextChange, propagateLoop, findSibling,
        nestedProviderStore, setRet, updF, ContextProvider]
    · rcases fuel with _ | fuel <;>
        simp [propagateContextChange, propagateLoop, findSibling,
          nestedProviderStore, setRet, updF, ContextProvider]

/-- Witness for claim C1: the concrete scenario with matching observed
bits and a consumer whose expiration time is `NoWork`. -/
theorem propagate_stops_at_nested_provider_witness :
    (propagateContextChange 10 (nestedProviderStore 1 7 1 4 4 0 0 0 0)
        0 7 1 5 2).expirationTime = 0 ∧
    (propagateContextChange 10 (nestedProviderStore 1 7 1 4 4 0 0 0 0)
        0 7 1 5 2).childExpirationTime = 0 ∧
    (propagateContextChange 10 (nestedProviderStore 1 7 1 4 4 0 0 0 0)
        0 7 1 5 3).expirationTime = 0 ∧
    (propagateContextChange 10 (nestedProviderStore 1 7 1 4 4 0 0 0 0)
        0 7 1 5 3).childExpirationTime = 0 :=
  propagate_stops_at_nested_provider 1 7 1 1 5 10 4 4 0 0 0 0 (by decide)


/-! ### Basic facts about the marking writes -/

/-- Evaluate `setChildExp` at `j`. -/
theorem setChildExp_apply (s : FiberStore) (i t j : Nat) :
    (setChildExp s i t) j =
      if j = i then { s j with childExpirationTime := t } else s j := by
  unfold setChildExp updF
  by_cases h : j = i <;> simp [h]

/-- Evaluate `setExp` at `j`. -/
theorem setExp_apply (s : FiberStore) (i t j : Nat) :
    (setExp s i t) j =
      if j = i then { s j with expirationTime := t } else s j := by
  unfold setExp updF
  by_cases h : j = i <;> simp [h]

theorem frameEq_refl (s : FiberStore) : FrameEq s s :=
  fun _ => ⟨rfl, rfl, rfl, rfl, rfl, rfl, rfl⟩

theorem frameEq_trans {s1 s2 s3 : FiberStore}
    (h1 : FrameEq s1 s2) (h2 : FrameEq s2 s3) : FrameEq s1 s3 := by
  intro j
  obtain ⟨a1, b1, c1, d1, e1, f1, g1⟩ := h1 j
  obtain ⟨a2, b2, c2, d2, e2, f2, g2⟩ := h2 j
  exact ⟨a2.trans a1, b2.trans b1, c2.trans c1, d2.trans d1,
    e2.trans e1, f2.trans f1, g2.trans g1⟩

theorem marksToward_refl (rT : Nat) (s : FiberStore) : MarksToward rT s s :=
  ⟨frameEq_refl s, fun _ => Or.inl rfl, fun _ => Or.inl rfl⟩

theorem marksToward_trans {rT : Nat} {s1 s2 s3 : FiberStore}
    (h1 : MarksToward rT s1 s2) (h2 : MarksToward rT s2 s3) :
    MarksToward rT s1 s3 := by
  refine ⟨frameEq_trans h1.1 h2.1, fun j => ?_, fun j => ?_⟩
  · rcases h2.2.1 j with h | h
    · rw [h]
      exact h1.2.1 j
    · exact Or.inr h
  · rcases h2.2.2 j with h | h
    · rw [h]
      exact h1.2.2 j
    · exact Or.inr h

theorem setChildExp_toward (rT : Nat) (s : FiberStore) (i : Nat) :
    MarksToward rT s (setChildExp s i rT) := by
  refine ⟨fun j => ?_, fun j => ?_, fun j => ?_⟩ <;>
    rw [setChildExp_apply] <;> by_cases h : j = i <;> simp [h]

theorem setExp_toward (rT : Nat) (s : FiberStore) (i : Nat) :
    MarksToward rT s (setExp s i rT) := by
  refine ⟨fun j => ?_, fun j => ?_, fun j => ?_⟩ <;>
    rw [setExp_apply] <;> by_cases h : j = i <;> simp [h]

/-- The ancestor climb performs marking writes only. -/
theorem updateAncestors_toward (rT : Nat) :
    ∀ (fuel : Nat) (s : FiberStore) (o : Option Nat),
      MarksToward rT s (updateAncestors rT fuel s o)
  | 0, s, none => marksToward_refl rT s
  | 0, s, some _ => marksToward_refl rT s
  | fuel + 1, s, none => marksToward_refl rT s
  | fuel + 1, s, some n => by
    rw [updateAncestors]
    by_cases hn : needsChildExpUpdate rT (s n) = true
    · simp only [hn, if_true]
      rcases halt : (s n).alternate with _ | a
      · simp only
        exact marksToward_trans (setChildExp_toward rT s n)
          (updateAncestors_toward rT fuel _ _)
      · simp only
        by_cases hna : needsChildExpUpdate rT ((setChildExp s n rT) a) = true
        · simp only [hna, if_true]
          exact marksToward_trans (setChildExp_toward rT s n)
            (marksToward_trans (setChildExp_toward rT _ a)
              (updateAncestors_toward rT fuel _ _))
        · simp only [hna, if_false]
          exact marksToward_trans (setChildExp_toward rT s n)
            (updateAncestors_toward rT fuel _ _)
    · simp only [hn, if_false]
      rcases halt : (s n).alternate with _ | a
      · exact marksToward_refl rT s
      · by_cases hna : needsChildExpUpdate rT (s a) = true
        · simp only [hna, if_true]
          exact marksToward_trans (setChildExp_toward rT s a)
            (updateAncestors_toward rT fuel _ _)
        · simp only [hna, if_false]
          exact marksToward_refl rT s

/-- The per-match marking performs marking writes only. -/
theorem markFiber_toward (rT fuel : Nat) (s : FiberStore) (i : Nat) :
    MarksToward rT s (markFiber rT fuel s i) := by
  unfold markFiber
  have h1 : MarksToward rT s
      (if needsExpUpdate rT (s i) = true then setExp s i rT else s) := by
    by_cases h : needsExpUpdate rT (s i) = true
    · simpa [h] using setExp_toward rT s i
    · simpa [h] using marksToward_refl rT s
  set s1 := if needsExpUpdate rT (s i) = true then setExp s i rT else s with hs1
  have h2 : MarksToward rT s1
      (match (s1 i).alternate with
        | some a => if needsExpUpdate rT (s1 a) = true then setExp s1 a rT
            else s1
        | none => s1) := by
    rcases (s1 i).alternate with _ | a
    · exact marksToward_refl rT s1
    · by_cases h : needsExpUpdate rT (s1 a) = true
      · simpa [h] using setExp_toward rT s1 a
      · simpa [h] using marksToward_refl rT s1
  exact marksToward_trans h1 (marksToward_trans h2
    (updateAncestors_toward rT fuel _ _))

/-- The dependency scan performs marking writes only. -/
theorem visitDeps_toward (ctx : Nat) (bits : ℤ) (rT fuel : Nat) :
    ∀ (ds : List ContextDependency) (s : FiberStore) (i : Nat),
      MarksToward rT s (visitDeps ctx bits rT fuel ds s i)
  | [], s, i => marksToward_refl rT s
  | d :: rest, s, i => by
    rw [visitDeps]
    by_cases hd : (d.context == ctx && Int.land d.observedBits bits != 0) = true
    · simp only [hd, if_true]
      exact marksToward_trans (markFiber_toward rT fuel s i)
        (visitDeps_toward ctx bits rT fuel rest _ i)
    · simp only [hd, if_false]
      exact visitDeps_toward ctx bits rT fuel rest s i

/-- Urgency of the expiration time survives marking writes. -/
theorem urgentExp_mono {rT : Nat} {s s' : FiberStore} (hrT : rT ≠ NoWork)
    (h : MarksToward rT s s') {j : Nat} (hu : urgentExp rT (s j)) :
    urgentExp rT (s' j) := by
  rcases h.2.1 j with he | he
  · exact ⟨he ▸ hu.1, he ▸ hu.2⟩
  · exact ⟨he ▸ hrT, he ▸ le_refl rT⟩

/-- Urgency of the child expiration time survives marking writes. -/
theorem urgentChild_mono {rT : Nat} {s s' : FiberStore} (hrT : rT ≠ NoWork)
    (h : MarksToward rT s s') {j : Nat} (hu : urgentChild rT (s j)) :
    urgentChild rT (s' j) := by
  rcases h.2.2 j with he | he
  · exact ⟨he ▸ hu.1, he ▸ hu.2⟩
  · exact ⟨he ▸ hrT, he ▸ le_refl rT⟩

/-! ### Transferring the chain hypotheses across marking writes -/

/-- A return chain only depends on the `return` fields. -/
theorem retChain_of_ret_eq {s s' : FiberStore}
    (h : ∀ j, (s' j).ret = (s j).ret) :
    ∀ {o : Option Nat} {l : List Nat}, RetChain s o l → RetChain s' o l := by
  intro o l hc
  induction hc with
  | nil => exact RetChain.nil
  | cons hret _ ih => exact RetChain.cons ((h _).trans hret) ih

/-- Chain separation only depends on the `alternate` fields. -/
theorem chainSeparated_of_alt_eq {s s' : FiberStore}
    (h : ∀ j, (s' j).alternate = (s j).alternate) {l : List Nat}
    (hs : chainSeparated s l) : chainSeparated s' l := by
  refine ⟨hs.1, ?_, ?_⟩
  · intro n hn a ha
    exact hs.2.1 n hn a ((h n) ▸ ha)
  · intro n hn m hm hnm a b ha hb
    exact hs.2.2 n hn m hm hnm a b ((h n) ▸ ha) ((h m) ▸ hb)

theorem chainSeparated_tail {s : FiberStore} {n : Nat} {l : List Nat}
    (h : chainSeparated s (n :: l)) : chainSeparated s l := by
  refine ⟨(List.nodup_cons.mp h.1).2, ?_, ?_⟩
  · intro m hm a ha
    intro hal
    exact h.2.1 m (List.mem_cons_of_mem n hm) a ha (List.mem_cons_of_mem n hal)
  · intro m hm k hk hmk a b ha hb
    exact h.2.2 m (List.mem_cons_of_mem n hm) k (List.mem_cons_of_mem n hk)
      hmk a b ha hb

theorem chainSufficiency_tail {rT : Nat} {s : FiberStore} {n : Nat}
    {l : List Nat} (h : chainSufficiency rT s (n :: l)) :
    chainSufficiency rT s l :=
  fun m hm => h m (List.mem_cons_of_mem n hm)

/-- On a return chain, the `return` target of any chain member is again a
chain member. -/
theorem retChain_ret_mem {s : FiberStore} :
    ∀ {o : Option Nat} {l : List Nat}, RetChain s o l →
      ∀ n ∈ l, ∀ p, (s n).ret = some p → p ∈ l := by
  intro o l hc
  induction hc with
  | nil => intro n hn; exact absurd hn (List.not_mem_nil n)
  | @cons n r l hret hrest ih =>
    intro m hm p hp
    rcases List.mem_cons.mp hm with rfl | hm'
    · rw [hret] at hp
      subst hp
      cases hrest with
      | cons _ _ => exact List.mem_cons_of_mem m (List.mem_cons_self _ _)
    · exact List.mem_cons_of_mem n (ih m hm' p hp)

/-- Chain sufficiency transfers to an arena that agrees on the
`alternate` and `return` fields everywhere and on the child expiration
times of the chain members and their alternates. -/
theorem chainSufficiency_transfer {rT : Nat} {s s' : FiberStore}
    {l : List Nat}
    (halt : ∀ j, (s' j).alternate = (s j).alternate)
    (hret : ∀ j, (s' j).ret = (s j).ret)
    (hce : ∀ j, (j ∈ l ∨ ∃ n ∈ l, (s n).alternate = some j) →
      (s' j).childExpirationTime = (s j).childExpirationTime)
    (hmem : ∀ n ∈ l, ∀ p, (s n).ret = some p → p ∈ l)
    (hsuf : chainSufficiency rT s l) : chainSufficiency rT s' l := by
  intro n hn hu haltok p hp
  rw [hret] at hp
  have hun : urgentChild rT (s n) := by
    have := hce n (Or.inl hn)
    exact ⟨this ▸ hu.1, this ▸ hu.2⟩
  have haltn : altChildOk rT s (s n) := by
    intro a ha
    have hua := haltok a ((halt n).trans ha)
    have := hce a (Or.inr ⟨n, hn, ha⟩)
    exact ⟨this ▸ hua.1, this ▸ hua.2⟩
  obtain ⟨hup, haltp⟩ := hsuf n hn hun haltn p hp
  have hpmem : p ∈ l := hmem n hn p hp
  constructor
  · have := hce p (Or.inl hpmem)
    exact ⟨this ▸ hup.1, this ▸ hup.2⟩
  · intro b hb
    have hb' : (s p).alternate = some b := (halt p) ▸ hb
    have hub := haltp b hb'
    have := hce b (Or.inr ⟨p, hpmem, hb'⟩)
    exact ⟨this ▸ hub.1, this ▸ hub.2⟩

/-- Along a return chain whose head is already urgent (with its
alternate), sufficiency makes the whole chain urgent. -/
theorem chain_all_urgent {rT : Nat} {s : FiberStore} :
    ∀ {o : Option Nat} {l : List Nat}, RetChain s o l →
      chainSufficiency rT s l →
      (∀ n, o = some n → urgentChild rT (s n) ∧ altChildOk rT s (s n)) →
      ∀ m ∈ l, urgentChild rT (s m) := by
  intro o l hc
  induction hc with
  | nil => intro _ _ m hm; exact absurd hm (List.not_mem_nil m)
  | @cons n r l hret hrest ih =>
    intro hsuf ho m hm
    obtain ⟨hun, haltn⟩ := ho n rfl
    rcases List.mem_cons.mp hm with rfl | hm'
    · exact hun
    · refine ih (chainSufficiency_tail hsuf) ?_ m hm'
      intro p hp
      exact hsuf n (List.mem_cons_self _ _) hun haltn p (hret.symm ▸ hp)

/-! ### Case equations for one step of the ancestor climb -/

theorem ua_step_needs_none {rT f : Nat} {s : FiberStore} {n : Nat}
    (hn : needsChildExpUpdate rT (s n) = true)
    (halt : (s n).alternate = none) :
    updateAncestors rT (f + 1) s (some n) =
      updateAncestors rT f (setChildExp s n rT) ((s n).ret) := by
  rw [updateAncestors]
  simp only [hn, if_true, halt]

theorem ua_step_needs_altNeeds {rT f : Nat} {s : FiberStore} {n a : Nat}
    (hn : needsChildExpUpdate rT (s n) = true)
    (halt : (s n).alternate = some a)
    (hna : needsChildExpUpdate rT ((setChildExp s n rT) a) = true) :
    updateAncestors rT (f + 1) s (some n) =
      updateAncestors rT f (setChildExp (setChildExp s n rT) a rT)
        ((s n).ret) := by
  rw [updateAncestors]
  simp only [hn, if_true, halt, hna]

theorem ua_step_needs_altOk {rT f : Nat} {s : FiberStore} {n a : Nat}
    (hn : needsChildExpUpdate rT (s n) = true)
    (halt : (s n).alternate = some a)
    (hna : needsChildExpUpdate rT ((setChildExp s n rT) a) = false) :
    updateAncestors rT (f + 1) s (some n) =
      updateAncestors rT f (setChildExp s n rT) ((s n).ret) := by
  rw [updateAncestors]
  simp only [hn, if_true, halt, hna, Bool.false_eq_true, if_false]

theorem ua_step_ok_altNeeds {rT f : Nat} {s : FiberStore} {n a : Nat}
    (hn : needsChildExpUpdate rT (s n) = false)
    (halt : (s n).alternate = some a)
    (hna : needsChildExpUpdate rT (s a) = true) :
    updateAncestors rT (f + 1) s (some n) =
      updateAncestors rT f (setChildExp s a rT) ((s n).ret) := by
  rw [updateAncestors]
  simp only [hn, Bool.false_eq_true, if_false, halt, hna, if_true]

theorem ua_step_ok_altOk {rT f : Nat} {s : FiberStore} {n a : Nat}
    (hn : needsChildExpUpdate rT (s n) = false)
    (halt : (s n).alternate = some a)
    (hna : needsChildExpUpdate rT (s a) = false) :
    updateAncestors rT (f + 1) s (some n) = s := by
  rw [updateAncestors]
  simp only [hn, Bool.false_eq_true, if_false, halt, hna]

theorem ua_step_ok_none {rT f : Nat} {s : FiberStore} {n : Nat}
    (hn : needsChildExpUpdate rT (s n) = false)
    (halt : (s n).alternate = none) :
    updateAncestors rT (f + 1) s (some n) = s := by
  rw [updateAncestors]
  simp only [hn, Bool.false_eq_true, if_false, halt]

/-- A false `needsChildExpUpdate` test means the field is already
urgent. -/
theorem urgentChild_of_not_needs {rT : Nat} {fb : Fiber}
    (h : needsChildExpUpdate rT fb = false) : urgentChild rT fb := by
  simp only [needsChildExpUpdate, NoWork, Bool.or_eq_false_iff,
    beq_eq_false_iff_ne, ne_eq, decide_eq_false_iff_not, not_lt] at h
  exact ⟨h.1, h.2⟩

theorem setChildExp_ne {s : FiberStore} {i t j : Nat} (h : j ≠ i) :
    (setChildExp s i t) j = s j := by
  rw [setChildExp_apply]
  simp [h]

theorem setChildExp_self (s : FiberStore) (i t : Nat) :
    ((setChildExp s i t) i).childExpirationTime = t := by
  rw [setChildExp_apply]
  simp

theorem setChildExp_ret (s : FiberStore) (i t j : Nat) :
    ((setChildExp s i t) j).ret = (s j).ret := by
  rw [setChildExp_apply]
  by_cases h : j = i <;> simp [h]

theorem setChildExp_alt (s : FiberStore) (i t j : Nat) :
    ((setChildExp s i t) j).alternate = (s j).alternate := by
  rw [setChildExp_apply]
  by_cases h : j = i <;> simp [h]

/-- Writing `rT` into the child expiration time of a fiber off the chain
(and aliased by none of the chain's alternates) preserves chain
sufficiency. -/
theorem chainSufficiency_setChildExp {rT : Nat} {s : FiberStore} {i : Nat}
    {l : List Nat} (hi : i ∉ l)
    (hialt : ∀ m ∈ l, ∀ b, (s m).alternate = some b → b ≠ i)
    (hmem : ∀ n ∈ l, ∀ p, (s n).ret = some p → p ∈ l)
    (hsuf : chainSufficiency rT s l) :
    chainSufficiency rT (setChildExp s i rT) l := by
  refine chainSufficiency_transfer (setChildExp_alt s i rT)
    (setChildExp_ret s i rT) ?_ hmem hsuf
  intro j hj
  have hji : j ≠ i := by
    rcases hj with hj | ⟨m, hm, hma⟩
    · exact fun h => hi (h ▸ hj)
    · exact hialt m hm j hma
  rw [setChildExp_ne hji]

/-- The ancestor climb makes every chain member's child expiration time
at least as urgent as `rT`, given the summarization-sufficiency
hypothesis the `break` relies on, separation of the chain from its
alternates, and enough fuel. -/
theorem updateAncestors_marks {rT : Nat} (hrT : rT ≠ NoWork) :
    ∀ (l : List Nat) (fuel : Nat) (s : FiberStore) (o : Option Nat),
      RetChain s o l → l.length ≤ fuel → chainSeparated s l →
      chainSufficiency rT s l →
      ∀ m ∈ l, urgentChild rT ((updateAncestors rT fuel s o) m)
  | [], _, _, _, _, _, _, _, m, hm => absurd hm (List.not_mem_nil m)
  | n :: rest, fuel, s, o, hchain, hlen, hsep, hsuf, m, hm => by
    rcases hchain with _ | @⟨n, r, rest, hret, hrest⟩
    rcases fuel with _ | f
    · exact absurd hlen (by simp)
    have hlen' : rest.length ≤ f := Nat.succ_le_succ_iff.mp (by simpa using hlen)
    have hnrest : n ∉ rest := (List.nodup_cons.mp hsep.1).1
    have hmem0 : ∀ k ∈ rest, ∀ p, (s k).ret = some p → p ∈ rest :=
      retChain_ret_mem hrest
    have haltrest : ∀ k ∈ rest, ∀ b, (s k).alternate = some b → b ≠ n := by
      intro k hk b hb
      intro hbn
      exact hsep.2.1 k (List.mem_cons_of_mem n hk) b hb
        (hbn ▸ List.mem_cons_self n rest)
    by_cases hn : needsChildExpUpdate rT (s n) = true
    · -- the node itself is updated to rT
      have hs1chain : RetChain (setChildExp s n rT) r rest :=
        retChain_of_ret_eq (setChildExp_ret s n rT) hrest
      have hs1sep : chainSeparated (setChildExp s n rT) rest :=
        chainSeparated_of_alt_eq (setChildExp_alt s n rT)
          (chainSeparated_tail hsep)
      have hs1suf : chainSufficiency rT (setChildExp s n rT) rest :=
        chainSufficiency_setChildExp hnrest haltrest hmem0
          (chainSufficiency_tail hsuf)
      have hs1urgent : urgentChild rT ((setChildExp s n rT) n) := by
        rw [urgentChild, setChildExp_self]
        exact ⟨hrT, le_refl rT⟩
      rcases halt : (s n).alternate with _ | a
      · rw [ua_step_needs_none hn halt, hret]
        rcases List.mem_cons.mp hm with rfl | hm'
        · exact urgentChild_mono hrT (updateAncestors_toward rT f _ _)
            hs1urgent
        · exact updateAncestors_marks hrT rest f _ r hs1chain hlen'
            hs1sep hs1suf m hm'
      · have hanotin : a ∉ n :: rest :=
          hsep.2.1 n (List.mem_cons_self n rest) a halt
        have han : a ≠ n := fun h =>
          hanotin (h ▸ List.mem_cons_self n rest)
        have harest : a ∉ rest := fun h =>
          hanotin (List.mem_cons_of_mem n h)
        by_cases hna :
            needsChildExpUpdate rT ((setChildExp s n rT) a) = true
        · -- both the node and the alternate are updated
          rw [ua_step_needs_altNeeds hn halt hna, hret]
          have hs2chain :
              RetChain (setChildExp (setChildExp s n rT) a rT) r rest :=
            retChain_of_ret_eq (setChildExp_ret _ a rT) hs1chain
          have hs2sep :
              chainSeparated (setChildExp (setChildExp s n rT) a rT) rest :=
            chainSeparated_of_alt_eq (setChildExp_alt _ a rT) hs1sep
          have hs2suf :
              chainSufficiency rT (setChildExp (setChildExp s n rT) a rT)
                rest := by
            refine chainSufficiency_setChildExp harest ?_ ?_ hs1suf
            · intro k hk b hb
              have hb' : (s k).alternate = some b :=
                (setChildExp_alt s n rT k) ▸ hb
              exact hsep.2.2 k (List.mem_cons_of_mem n hk) n
                (List.mem_cons_self n rest)
                (fun h => hnrest (h ▸ hk)) b a hb' halt
            · intro k hk p hp
              exact hmem0 k hk p ((setChildExp_ret s n rT k) ▸ hp)
          rcases List.mem_cons.mp hm with rfl | hm'
          · have hum : urgentChild rT
                ((setChildExp (setChildExp s m rT) a rT) m) := by
              rw [setChildExp_ne (fun h => han h.symm)]
              exact hs1urgent
            exact urgentChild_mono hrT (updateAncestors_toward rT f _ _) hum
          · exact updateAncestors_marks hrT rest f _ r hs2chain hlen'
              hs2sep hs2suf m hm'
        · -- alternate already urgent; only the node is updated
          rw [ua_step_needs_altOk hn halt
            (Bool.not_eq_true _ ▸ hna), hret]
          rcases List.mem_cons.mp hm with rfl | hm'
          · exact urgentChild_mono hrT (updateAncestors_toward rT f _ _)
              hs1urgent
          · exact updateAncestors_marks hrT rest f _ r hs1chain hlen'
              hs1sep hs1suf m hm'
    · -- the node is already urgent
      have hn' : needsChildExpUpdate rT (s n) = false :=
        Bool.not_eq_true _ ▸ hn
      have hun : urgentChild rT (s n) := urgentChild_of_not_needs hn'
      rcases halt : (s n).alternate with _ | a
      · -- break: the whole remaining chain is already urgent
        rw [ua_step_ok_none hn' halt]
        refine chain_all_urgent (RetChain.cons hret hrest) hsuf ?_ m hm
        intro k hk
        injection hk with hk
        subst hk
        refine ⟨hun, ?_⟩
        intro b hb
        rw [halt] at hb
        exact absurd hb (by simp)
      · by_cases hna : needsChildExpUpdate rT (s a) = true
        · -- only the alternate is updated; the climb continues
          rw [ua_step_ok_altNeeds hn' halt hna, hret]
          have hanotin : a ∉ n :: rest :=
            hsep.2.1 n (List.mem_cons_self n rest) a halt
          have harest : a ∉ rest := fun h =>
            hanotin (List.mem_cons_of_mem n h)
          have hs1chain : RetChain (setChildExp s a rT) r rest :=
            retChain_of_ret_eq (setChildExp_ret s a rT) hrest
          have hs1sep : chainSeparated (setChildExp s a rT) rest :=
            chainSeparated_of_alt_eq (setChildExp_alt s a rT)
              (chainSeparated_tail hsep)
          have hs1suf : chainSufficiency rT (setChildExp s a rT) rest := by
            refine chainSufficiency_setChildExp harest ?_ hmem0
              (chainSufficiency_tail hsuf)
            intro k hk b hb
            exact hsep.2.2 k (List.mem_cons_of_mem n hk) n
              (List.mem_cons_self n rest)
              (fun h => hnrest (h ▸ hk)) b a hb halt
          rcases List.mem_cons.mp hm with rfl | hm'
          · exact urgentChild_mono hrT
              (marksToward_trans (setChildExp_toward rT s a)
                (updateAncestors_toward rT f _ _)) hun
          · exact updateAncestors_marks hrT rest f _ r hs1chain hlen'
              hs1sep hs1suf m hm'
        · -- break: node and alternate both already urgent
          rw [ua_step_ok_altOk hn' halt (Bool.not_eq_true _ ▸ hna)]
          refine chain_all_urgent (RetChain.cons hret hrest) hsuf ?_ m hm
          intro k hk
          injection hk with hk
          subst hk
          refine ⟨hun, ?_⟩
          intro b hb
          rw [halt] at hb
          injection hb with hb
          subst hb
          exact urgentChild_of_not_needs (Bool.not_eq_true _ ▸ hna)

theorem urgentExp_of_not_needs {rT : Nat} {fb : Fiber}
    (h : needsExpUpdate rT fb = false) : urgentExp rT fb := by
  simp only [needsExpUpdate, NoWork, Bool.or_eq_false_iff,
    beq_eq_false_iff_ne, ne_eq, decide_eq_false_iff_not, not_lt] at h
  exact ⟨h.1, h.2⟩

theorem setExp_ne {s : FiberStore} {i t j : Nat} (h : j ≠ i) :
    (setExp s i t) j = s j := by
  rw [setExp_apply]
  simp [h]

theorem setExp_self (s : FiberStore) (i t : Nat) :
    ((setExp s i t) i).expirationTime = t := by
  rw [setExp_apply]
  simp

theorem setExp_ret (s : FiberStore) (i t j : Nat) :
    ((setExp s i t) j).ret = (s j).ret := by
  rw [setExp_apply]
  by_cases h : j = i <;> simp [h]

theorem setExp_alt (s : FiberStore) (i t j : Nat) :
    ((setExp s i t) j).alternate = (s j).alternate := by
  rw [setExp_apply]
  by_cases h : j = i <;> simp [h]

theorem setExp_childExp (s : FiberStore) (i t j : Nat) :
    ((setExp s i t) j).childExpirationTime = (s j).childExpirationTime := by
  rw [setExp_apply]
  by_cases h : j = i <;> simp [h]

/-- Common final step of the per-match marking: after the expiration
writes (producing `s2`, which agrees with `s` on the control fields and
child expiration times), the climb keeps the fiber urgent and makes the
whole chain urgent. -/
theorem mark_then_climb {rT : Nat} (hrT : rT ≠ NoWork) (fuel : Nat)
    (s s2 : FiberStore) (i : Nat) (l : List Nat)
    (hag : ∀ j, (s2 j).ret = (s j).ret ∧
      (s2 j).alternate = (s j).alternate ∧
      (s2 j).childExpirationTime = (s j).childExpirationTime)
    (hchain : RetChain s ((s i).ret) l) (hfuel : l.length ≤ fuel)
    (hsep : chainSeparated s l) (hsuf : chainSufficiency rT s l) :
    (∀ j, urgentExp rT (s2 j) →
      urgentExp rT ((updateAncestors rT fuel s2 ((s2 i).ret)) j)) ∧
    (∀ m ∈ l, urgentChild rT ((updateAncestors rT fuel s2 ((s2 i).ret)) m)) := by
  constructor
  · intro j hj
    exact urgentExp_mono hrT (updateAncestors_toward rT fuel _ _) hj
  · rw [(hag i).1]
    intro m hm
    refine updateAncestors_marks hrT l fuel s2 ((s i).ret) ?_ hfuel ?_ ?_ m hm
    · exact retChain_of_ret_eq (fun j => (hag j).1) hchain
    · exact chainSeparated_of_alt_eq (fun j => (hag j).2.1) hsep
    · exact chainSufficiency_transfer (fun j => (hag j).2.1)
        (fun j => (hag j).1) (fun j _ => (hag j).2.2)
        (retChain_ret_mem hchain) hsuf

/-- The per-match marking (part_002 lines 164-208) makes the fiber and
its alternate urgent and, through the climb, every return-chain ancestor
urgent. -/
theorem markFiber_marks {rT : Nat} (hrT : rT ≠ NoWork) (fuel : Nat)
    (s : FiberStore) (i : Nat) (l : List Nat)
    (hchain : RetChain s ((s i).ret) l) (hfuel : l.length ≤ fuel)
    (hsep : chainSeparated s l) (hsuf : chainSufficiency rT s l) :
    urgentExp rT ((markFiber rT fuel s i) i) ∧
    (∀ a, (s i).alternate = some a →
      urgentExp rT ((markFiber rT fuel s i) a)) ∧
    (∀ m ∈ l, urgentChild rT ((markFiber rT fuel s i) m)) := by
  unfold markFiber
  by_cases hA : needsExpUpdate rT (s i) = true
  · simp only [hA, if_true, setExp_alt]
    rcases halt : (s i).alternate with _ | a
    · simp only
      have hag : ∀ j, ((setExp s i rT) j).ret = (s j).ret ∧
          ((setExp s i rT) j).alternate = (s j).alternate ∧
          ((setExp s i rT) j).childExpirationTime =
            (s j).childExpirationTime :=
        fun j => ⟨setExp_ret s i rT j, setExp_alt s i rT j,
          setExp_childExp s i rT j⟩
      obtain ⟨hkeep, hchainres⟩ :=
        mark_then_climb hrT fuel s (setExp s i rT) i l hag hchain hfuel
          hsep hsuf
      refine ⟨?_, ?_, hchainres⟩
      · exact hkeep i ⟨by rw [setExp_self]; exact hrT, by rw [setExp_self]⟩
      · intro a' ha'
        exact absurd ha' (by simp)
    · simp only
      by_cases hB : needsExpUpdate rT ((setExp s i rT) a) = true
      · simp only [hB, if_true]
        have hag : ∀ j, ((setExp (setExp s i rT) a rT) j).ret = (s j).ret ∧
            ((setExp (setExp s i rT) a rT) j).alternate = (s j).alternate ∧
            ((setExp (setExp s i rT) a rT) j).childExpirationTime =
              (s j).childExpirationTime :=
          fun j => ⟨(setExp_ret _ a rT j).trans (setExp_ret s i rT j),
            (setExp_alt _ a rT j).trans (setExp_alt s i rT j),
            (setExp_childExp _ a rT j).trans (setExp_childExp s i rT j)⟩
        obtain ⟨hkeep, hchainres⟩ :=
          mark_then_climb hrT fuel s (setExp (setExp s i rT) a rT) i l hag
            hchain hfuel hsep hsuf
        have hexpi : ((setExp (setExp s i rT) a rT) i).expirationTime = rT := by
          by_cases hai : i = a
          · subst hai
            rw [setExp_self]
          · rw [setExp_ne hai, setExp_self]
        refine ⟨hkeep i ⟨by rw [hexpi]; exact hrT, by rw [hexpi]⟩, ?_,
          hchainres⟩
        intro a' ha'
        injection ha' with ha'
        subst ha'
        exact hkeep a ⟨by rw [setExp_self]; exact hrT, by rw [setExp_self]⟩
      · simp only [hB, Bool.false_eq_true, if_false]
        have hag : ∀ j, ((setExp s i rT) j).ret = (s j).ret ∧
            ((setExp s i rT) j).alternate = (s j).alternate ∧
            ((setExp s i rT) j).childExpirationTime =
              (s j).childExpirationTime :=
          fun j => ⟨setExp_ret s i rT j, setExp_alt s i rT j,
            setExp_childExp s i rT j⟩
        obtain ⟨hkeep, hchainres⟩ :=
          mark_then_climb hrT fuel s (setExp s i rT) i l hag hchain hfuel
            hsep hsuf
        refine ⟨hkeep i ⟨by rw [setExp_self]; exact hrT,
          by rw [setExp_self]⟩, ?_, hchainres⟩
        intro a' ha'
        injection ha' with ha'
        subst ha'
        exact hkeep a
          (urgentExp_of_not_needs (Bool.not_eq_true _ ▸ hB))
  · simp only [hA, Bool.false_eq_true, if_false]
    have hexpi : urgentExp rT (s i) :=
      urgentExp_of_not_needs (Bool.not_eq_true _ ▸ hA)
    rcases halt : (s i).alternate with _ | a
    · simp only
      obtain ⟨hkeep, hchainres⟩ :=
        mark_then_climb hrT fuel s s i l
          (fun j => ⟨rfl, rfl, rfl⟩) hchain hfuel hsep hsuf
      refine ⟨hkeep i hexpi, ?_, hchainres⟩
      intro a' ha'
      exact absurd ha' (by simp)
    · simp only
      by_cases hB : needsExpUpdate rT (s a) = true
      · simp only [hB, if_true]
        have hag : ∀ j, ((setExp s a rT) j).ret = (s j).ret ∧
            ((setExp s a rT) j).alternate = (s j).alternate ∧
            ((setExp s a rT) j).childExpirationTime =
              (s j).childExpirationTime :=
          fun j => ⟨setExp_ret s a rT j, setExp_alt s a rT j,
            setExp_childExp s a rT j⟩
        obtain ⟨hkeep, hchainres⟩ :=
          mark_then_climb hrT fuel s (setExp s a rT) i l hag hchain hfuel
            hsep hsuf
        refine ⟨hkeep i (urgentExp_mono hrT (setExp_toward rT s a) hexpi),
          ?_, hchainres⟩
        intro a' ha'
        injection ha' with ha'
        subst ha'
        exact hkeep a ⟨by rw [setExp_self]; exact hrT, by rw [setExp_self]⟩
      · simp only [hB, Bool.false_eq_true, if_false]
        obtain ⟨hkeep, hchainres⟩ :=
          mark_then_climb hrT fuel s s i l
            (fun j => ⟨rfl, rfl, rfl⟩) hchain hfuel hsep hsuf
        refine ⟨hkeep i hexpi, ?_, hchainres⟩
        intro a' ha'
        injection ha' with ha'
        subst ha'
        exact hkeep a
          (urgentExp_of_not_needs (Bool.not_eq_true _ ▸ hB))

/-- The dependency scan of a visited fiber: as soon as some dependency
record matches, the fiber, its alternate and the whole return chain end
up urgent. -/
theorem visitDeps_marks {rT : Nat} (hrT : rT ≠ NoWork) (ctx : Nat)
    (bits : ℤ) (fuel : Nat) :
    ∀ (ds : List ContextDependency) (s : FiberStore) (i : Nat)
      (l : List Nat),
      RetChain s ((s i).ret) l → l.length ≤ fuel →
      chainSeparated s l → chainSufficiency rT s l →
      (∃ d ∈ ds, d.context = ctx ∧ Int.land d.observedBits bits ≠ 0) →
      urgentExp rT ((visitDeps ctx bits rT fuel ds s i) i) ∧
      (∀ a, (s i).alternate = some a →
        urgentExp rT ((visitDeps ctx bits rT fuel ds s i) a)) ∧
      (∀ m ∈ l, urgentChild rT ((visitDeps ctx bits rT fuel ds s i) m))
  | [], s, i, l, _, _, _, _, hex => by
    obtain ⟨d, hd, _⟩ := hex
    exact absurd hd (List.not_mem_nil d)
  | d :: rest, s, i, l, hchain, hfuel, hsep, hsuf, hex => by
    rw [visitDeps]
    by_cases hd : (d.context == ctx && Int.land d.observedBits bits != 0) = true
    · simp only [hd, if_true]
      obtain ⟨hui, hua, hul⟩ :=
        markFiber_marks hrT fuel s i l hchain hfuel hsep hsuf
      have htow := visitDeps_toward ctx bits rT fuel rest
        (markFiber rT fuel s i) i
      refine ⟨urgentExp_mono hrT htow hui, ?_, ?_⟩
      · intro a ha
        exact urgentExp_mono hrT htow (hua a ha)
      · intro m hm
        exact urgentChild_mono hrT htow (hul m hm)
    · simp only [hd, Bool.false_eq_true, if_false]
      obtain ⟨d', hd', hc', hl'⟩ := hex
      rcases List.mem_cons.mp hd' with rfl | hmem
      · exfalso
        apply hd
        simp only [Bool.and_eq_true, beq_iff_eq, bne_iff_ne, ne_eq]
        exact ⟨hc', hl'⟩
      · exact visitDeps_marks hrT ctx bits fuel rest s i l hchain hfuel
          hsep hsuf ⟨d', hmem, hc', hl'⟩

/-- Claim C2, amended: when the walk of `propagateContextChange` visits a
fiber whose dependency list has a record matching the changed context
(lines 156-209 of part_002, embedded as `visitDeps` over the fiber's
dependency list), the fiber's expiration time becomes at least as urgent
as `renderExpirationTime` — and is set to exactly
`renderExpirationTime` whenever it was `NoWork` or larger — its
alternate's likewise, and every fiber on its return chain gets a
`childExpirationTime` at least as urgent as `renderExpirationTime`,
provided the chain satisfies the double-buffer separation discipline and
the summarization-sufficiency consequence of the spec's invariant that
the climb's early `break` relies on.  (Fibers below a nested provider of
the same type are never visited — claim C1 — which refutes the original
unrestricted quantification.) -/
theorem propagateContextChange_marks_matched {rT : Nat} (fuel ctx : Nat)
    (bits : ℤ) (s : FiberStore) (i : Nat) (l : List Nat)
    (hrT : rT ≠ NoWork)
    (hmatch : ∃ d ∈ (s i).deps, d.context = ctx ∧
      Int.land d.observedBits bits ≠ 0)
    (hchain : RetChain s ((s i).ret) l) (hfuel : l.length ≤ fuel)
    (hsep : chainSeparated s l) (hsuf : chainSufficiency rT s l) :
    urgentExp rT ((visitDeps ctx bits rT fuel (s i).deps s i) i) ∧
    (((s i).expirationTime = NoWork ∨ rT < (s i).expirationTime) →
      ((visitDeps ctx bits rT fuel (s i).deps s i) i).expirationTime = rT) ∧
    (∀ a, (s i).alternate = some a →
      urgentExp rT ((visitDeps ctx bits rT fuel (s i).deps s i) a)) ∧
    (∀ m ∈ l, urgentChild rT ((visitDeps ctx bits rT fuel (s i).deps s i) m)) := by
  obtain ⟨hui, hua, hul⟩ :=
    visitDeps_marks hrT ctx bits fuel (s i).deps s i l hchain hfuel hsep
      hsuf hmatch
  refine ⟨hui, ?_, hua, hul⟩
  intro hold
  rcases (visitDeps_toward ctx bits rT fuel (s i).deps s i).2.1 i with
    he | he
  · rcases hold with hold | hold
    · exact absurd (he.trans hold) hui.1
    · exact absurd (he ▸ hui.2) (not_le.mpr hold)
  · exact he

/-- Claim C2, counterexample: in the concrete
`Provider(X) > Provider(X) > Consumer` tree, the consumer's dependency
record matches the changed bits and its expiration time is `NoWork`, yet
after `propagateContextChange` (render expiration time 5) its expiration
time is still not 5 — the walk never reaches it, so the claim's "every
fiber whose dependency list contains a matching record" fails. -/
theorem propagate_misses_nested_dependent :
    Int.land (1 : ℤ) 1 ≠ 0 ∧
    (nestedProviderStore 1 7 1 0 0 0 0 0 0 2).deps = [⟨7, 1⟩] ∧
    (nestedProviderStore 1 7 1 0 0 0 0 0 0 2).expirationTime = NoWork ∧
    (propagateContextChange 10 (nestedProviderStore 1 7 1 0 0 0 0 0 0)
        0 7 1 5 2).expirationTime ≠ 5 := by
  decide

/-- Witness for the amended claim C2: the concrete chain, all hypotheses
discharged. -/
theorem propagateContextChange_marks_matched_witness :
    urgentExp 5
      ((visitDeps 7 1 5 10 (chainWitnessStore 5).deps chainWitnessStore 5)
        5) ∧
    (((chainWitnessStore 5).expirationTime = NoWork ∨
        5 < (chainWitnessStore 5).expirationTime) →
      ((visitDeps 7 1 5 10 (chainWitnessStore 5).deps chainWitnessStore 5)
          5).expirationTime = 5) ∧
    (∀ a, (chainWitnessStore 5).alternate = some a →
      urgentExp 5
        ((visitDeps 7 1 5 10 (chainWitnessStore 5).deps chainWitnessStore 5)
          a)) ∧
    (∀ m ∈ [3, 2], urgentChild 5
      ((visitDeps 7 1 5 10 (chainWitnessStore 5).deps chainWitnessStore 5)
        m)) :=
  propagateContextChange_marks_matched 10 7 1 chainWitnessStore 5 [3, 2]
    (by decide) (by decide)
    (RetChain.cons rfl (RetChain.cons rfl RetChain.nil))
    (by decide)
    ⟨by decide,
      by
        intro n hn a ha
        fin_cases hn <;> simp [chainWitnessStore] at ha,
      by
        intro n hn m hm hnm a b ha hb
        fin_cases hn <;> simp [chainWitnessStore] at ha⟩
    (by
      intro n hn hu ho p hp
      exfalso
      fin_cases hn <;> exact hu.1 rfl)

end ReactSpec
